import Mathlib

/-!
# AuthManager (static/js/auth.js): a shallow embedding

The class `AuthManager` keeps an access token and a refresh token, mirrors them
in `localStorage`, attaches the access token to outgoing calls and replaces the
pair when the server rotates it or when a call is answered with status 401.

The embedding passes the whole observable state explicitly (`World`): the two
fields of the manager, `localStorage`, the value last assigned to
`window.location.href` and the list of calls made to `fetch`.  The server is a
parameter: a function from the calls made so far and the current call to what
`fetch` gives back.  `request` calls itself after a successful refresh, so it
takes a recursion budget and reports `Outcome.outOfFuel` when the budget is used
up.  Writes to the console are not modelled, and `localStorage` never fails.
-/

namespace AuthManager

/-! ## JavaScript values -/

mutual
/-- The JavaScript values the manager can meet as a token or inside a parsed
response body: `undefined`, `null`, booleans, numbers, strings and plain
objects.  A number is given by the string `String(n)` it converts to (`"0"`
for both zeros, `"NaN"`, `"1.5"`, `"1e+21"`), which is all the program ever
asks of a number; a string that is the form of no number stands for no value.
An object is a plain object that keeps the inherited `toString`. -/
inductive JsVal where
  | undefined
  | null
  | bool (b : Bool)
  | num (text : String)
  | str (s : String)
  | obj (fields : JsFields)
/-- The entries of an object in the order they were written. -/
inductive JsFields where
  | nil
  | cons (key : String) (value : JsVal) (rest : JsFields)
end

mutual
/-- Equality of values is decidable. -/
def JsVal.decEq : (a b : JsVal) → Decidable (a = b)
  | .undefined, .undefined => isTrue rfl
  | .null, .null => isTrue rfl
  | .bool a, .bool b =>
    if h : a = b then isTrue (by rw [h]) else isFalse (by intro e; cases e; exact h rfl)
  | .num a, .num b =>
    if h : a = b then isTrue (by rw [h]) else isFalse (by intro e; cases e; exact h rfl)
  | .str a, .str b =>
    if h : a = b then isTrue (by rw [h]) else isFalse (by intro e; cases e; exact h rfl)
  | .obj a, .obj b =>
    match JsFields.decEq a b with
    | isTrue h => isTrue (by rw [h])
    | isFalse h => isFalse (by intro e; cases e; exact h rfl)
  | .undefined, .null | .undefined, .bool _ | .undefined, .num _ | .undefined, .str _
  | .undefined, .obj _ => isFalse (by intro e; cases e)
  | .null, .undefined | .null, .bool _ | .null, .num _ | .null, .str _
  | .null, .obj _ => isFalse (by intro e; cases e)
  | .bool _, .undefined | .bool _, .null | .bool _, .num _ | .bool _, .str _
  | .bool _, .obj _ => isFalse (by intro e; cases e)
  | .num _, .undefined | .num _, .null | .num _, .bool _ | .num _, .str _
  | .num _, .obj _ => isFalse (by intro e; cases e)
  | .str _, .undefined | .str _, .null | .str _, .bool _ | .str _, .num _
  | .str _, .obj _ => isFalse (by intro e; cases e)
  | .obj _, .undefined | .obj _, .null | .obj _, .bool _ | .obj _, .num _
  | .obj _, .str _ => isFalse (by intro e; cases e)
/-- Equality of entry lists is decidable. -/
def JsFields.decEq : (a b : JsFields) → Decidable (a = b)
  | .nil, .nil => isTrue rfl
  | .cons k v r, .cons k2 v2 r2 =>
    if hk : k = k2 then
      match JsVal.decEq v v2 with
      | isTrue hv =>
        match JsFields.decEq r r2 with
        | isTrue hr => isTrue (by rw [hk, hv, hr])
        | isFalse hr => isFalse (by intro e; cases e; exact hr rfl)
      | isFalse hv => isFalse (by intro e; cases e; exact hv rfl)
    else isFalse (by intro e; cases e; exact hk rfl)
  | .nil, .cons _ _ _ => isFalse (by intro e; cases e)
  | .cons _ _ _, .nil => isFalse (by intro e; cases e)
end

instance : DecidableEq JsVal := JsVal.decEq

instance : DecidableEq JsFields := JsFields.decEq

/-- The exceptions that can travel through the manager. -/
inductive JsError where
  /-- `new Error(message)` -/
  | error (message : String)
  /-- reading a property of `undefined` or `null` -/
  | typeError
  /-- `response.json()` on a body that is not JSON -/
  | syntaxError
  /-- a rejection of `fetch` itself -/
  | network (detail : String)
  deriving DecidableEq, Repr

/-- Truthiness, as tested by `!v` and `if (v)`: the falsy numbers are the two
zeros and `NaN`. -/
def truthy : JsVal → Bool
  | .undefined => false
  | .null => false
  | .bool b => b
  | .num text => text != "0" && text != "NaN"
  | .str s => s != ""
  | .obj _ => true

/-- The string a value turns into inside a template literal and in
`localStorage.setItem`. -/
def toStr : JsVal → String
  | .undefined => "undefined"
  | .null => "null"
  | .bool b => if b then "true" else "false"
  | .num text => text
  | .str s => s
  | .obj _ => "[object Object]"

/-- The value of key `k` among the entries: the last entry written wins, a
missing key reads as `undefined`. -/
def JsFields.get : JsFields → String → JsVal
  | .nil, _ => .undefined
  | .cons key value rest, k =>
    match JsFields.get rest k with
    | .undefined => if key = k then value else .undefined
    | v => v

/-- Property read `v.k` for the property names this program reads (`data`,
`tokens`, `new_tokens`, `token_refreshed`, `access_token`, `refresh_token`):
a `TypeError` on `undefined` and `null`, `undefined` on the other primitives. -/
def JsVal.prop (v : JsVal) (k : String) : Except JsError JsVal :=
  match v with
  | .undefined => .error .typeError
  | .null => .error .typeError
  | .obj fields => .ok (fields.get k)
  | _ => .ok .undefined

/-- The destructuring `const { access_token, refresh_token } = v`. -/
def destructureTokens (v : JsVal) : Except JsError (JsVal × JsVal) :=
  match v.prop "access_token", v.prop "refresh_token" with
  | .ok a, .ok r => .ok (a, r)
  | .error e, _ => .error e
  | _, .error e => .error e

/-- The destructuring `const { access_token, refresh_token } = data.data[field]`,
with `field` one of `tokens` and `new_tokens`. -/
def envelopeTokens (data : JsVal) (field : String) : Except JsError (JsVal × JsVal) :=
  match data.prop "data" with
  | .error e => .error e
  | .ok inner =>
    match inner.prop field with
    | .error e => .error e
    | .ok tokens => destructureTokens tokens

/-- A string that may be `null`, as `localStorage.getItem` and `headers.get`
return it. -/
def ofNullable : Option String → JsVal
  | none => .null
  | some s => .str s

/-! ## The browser: storage, fetch -/

/-- An object literal with string values, entries in the order written. -/
abbrev JsObject := List (String × String)

/-- The value of key `k` in an object literal: the last entry written wins. -/
def objGet : JsObject → String → Option String
  | [], _ => none
  | (key, value) :: rest, k =>
    match objGet rest k with
    | some v => some v
    | none => if key = k then some value else none

/-- The content of `localStorage`. -/
abbrev Storage := List (String × String)

/-- `localStorage.getItem(k)`; `none` stands for `null`. -/
def getItem (st : Storage) (k : String) : Option String :=
  match st with
  | [] => none
  | (key, value) :: rest => if key = k then some value else getItem rest k

/-- `localStorage.removeItem(k)`. -/
def removeItem (st : Storage) (k : String) : Storage :=
  st.filter (fun p => p.1 ≠ k)

/-- `localStorage.setItem(k, v)`, the value already turned into a string. -/
def setItem (st : Storage) (k v : String) : Storage :=
  (k, v) :: removeItem st k

/-- A request body: a string given by the caller, or `JSON.stringify(v)`. -/
inductive Body where
  | text (s : String)
  | json (v : JsVal)
  deriving DecidableEq

/-- What a caller can pass as `options.headers`: a plain object, or an instance
of `Headers`. -/
inductive HeadersInit where
  /-- a plain object with these own enumerable properties, string-valued -/
  | object (own : JsObject)
  /-- an instance of `Headers` that holds these entries -/
  | headers (entries : JsObject)
  deriving DecidableEq

/-- The properties the spread `...h` copies: the own enumerable properties.  An
instance of `Headers` keeps its entries inside and has none. -/
def HeadersInit.spread : HeadersInit → JsObject
  | .object own => own
  | .headers _ => []

/-- The `options` argument of `request`. -/
structure Options where
  method : Option String := none
  headers : Option HeadersInit := none
  body : Option Body := none
  deriving DecidableEq

/-- The arguments of one call to `fetch`. -/
structure FetchCall where
  url : String
  method : Option String
  headers : JsObject
  body : Option Body
  deriving DecidableEq

/-- What the manager reads of a response: the status, what `headers.get` gives
for the three rotation headers (`none` for `null`) and what `json()` resolves
to (`none` when it rejects). -/
structure Response where
  status : Nat
  xNewAccessToken : Option String := none
  xNewRefreshToken : Option String := none
  xTokenRefreshed : Option String := none
  json : Option JsVal := none
  deriving DecidableEq

/-- `response.ok`: the status is in the range 200 to 299. -/
def Response.ok (r : Response) : Bool :=
  decide (200 ≤ r.status) && decide (r.status ≤ 299)

/-- What `fetch` gives back: a response, or a rejection. -/
inductive FetchResult where
  | response (r : Response)
  | failure (e : JsError)
  deriving DecidableEq

/-- A server: from the calls made so far and the current call to the answer. -/
abbrev Server := List FetchCall → FetchCall → FetchResult

/-- The observable state: the manager's fields and the browser around it. -/
structure World where
  accessToken : JsVal
  refreshToken : JsVal
  baseURL : String
  localStorage : Storage
  /-- the value last assigned to `window.location.href` -/
  location : Option String
  /-- the calls made to `fetch`, oldest first -/
  fetched : List FetchCall
  deriving DecidableEq

/-- How a call of a method ends. -/
inductive Outcome (α : Type) where
  | returned (value : α)
  | threw (e : JsError)
  | outOfFuel
  deriving DecidableEq

/-- One call `fetch(c)`: the server answers from the history, the call is
recorded. -/
def fetch (srv : Server) (w : World) (c : FetchCall) : FetchResult × World :=
  (srv w.fetched c, { w with fetched := w.fetched ++ [c] })

/-! ## The manager -/

/-- The constructor: both fields are read from `localStorage`. -/
def new (storage : Storage) : World :=
  { accessToken := ofNullable (getItem storage "access_token")
    refreshToken := ofNullable (getItem storage "refresh_token")
    baseURL := "/api"
    localStorage := storage
    location := none
    fetched := [] }

/-- `setTokens(accessToken, refreshToken)`. -/
def setTokens (w : World) (accessToken refreshToken : JsVal) : World :=
  { w with
    accessToken := accessToken
    refreshToken := refreshToken
    localStorage :=
      setItem (setItem w.localStorage "access_token" (toStr accessToken))
        "refresh_token" (toStr refreshToken) }

/-- `clearTokens()`. -/
def clearTokens (w : World) : World :=
  { w with
    accessToken := .null
    refreshToken := .null
    localStorage := removeItem (removeItem w.localStorage "access_token") "refresh_token" }

/-- The `headers` object built by `request`: the two defaults, then
`...options.headers` spread over them (nothing when it is `undefined`). -/
def requestHeaders (w : World) (options : Options) : JsObject :=
  [("Content-Type", "application/json"), ("Authorization", "Bearer " ++ toStr w.accessToken)]
    ++ (match options.headers with
        | none => []
        | some h => h.spread)

/-- The call `request` passes to `fetch`: `baseURL + url` with
`{...options, headers}`. -/
def requestCall (w : World) (url : String) (options : Options) : FetchCall :=
  { url := w.baseURL ++ url
    method := options.method
    headers := requestHeaders w options
    body := options.body }

/-- The check of the rotation headers in `request`: when `X-Token-Refreshed`
is `"true"` and both new tokens are truthy, they are adopted. -/
def adoptHeaderTokens (w : World) (response : Response) : World :=
  let newAccessToken := ofNullable response.xNewAccessToken
  let newRefreshToken := ofNullable response.xNewRefreshToken
  let tokenRefreshed := ofNullable response.xTokenRefreshed
  if tokenRefreshed = .str "true" ∧ truthy newAccessToken = true
      ∧ truthy newRefreshToken = true then
    setTokens w newAccessToken newRefreshToken
  else w

/-- The call `refreshTokenManually` passes to `fetch`. -/
def refreshCall (w : World) : FetchCall :=
  { url := w.baseURL ++ "/auth/refresh"
    method := some "POST"
    headers := [("Content-Type", "application/json")]
    body := some (.json (.obj (.cons "refresh_token" w.refreshToken .nil))) }

/-- The `try` block of `refreshTokenManually`: `some true` when it returns
`true`, `none` when it ends without returning (the answer was not ok). -/
def refreshAttempt (srv : Server) (w : World) : Outcome (Option Bool) × World :=
  match fetch srv w (refreshCall w) with
  | (.failure e, w1) => (.threw e, w1)
  | (.response response, w1) =>
    if response.ok then
      match response.json with
      | none => (.threw .syntaxError, w1)
      | some data =>
        match envelopeTokens data "tokens" with
        | .error e => (.threw e, w1)
        | .ok (access_token, refresh_token) =>
          (.returned (some true), setTokens w1 access_token refresh_token)
    else (.returned none, w1)

/-- `refreshTokenManually()`: no refresh token gives `false` at once; an
exception of the `try` block is caught and gives `false`. -/
def refreshTokenManually (srv : Server) (w : World) : Outcome Bool × World :=
  if truthy w.refreshToken = false then (.returned false, w)
  else
    match refreshAttempt srv w with
    | (.returned (some b), w1) => (.returned b, w1)
    | (.returned none, w1) => (.returned false, w1)
    | (.threw _, w1) => (.returned false, w1)
    | (.outOfFuel, w1) => (.outOfFuel, w1)

/-- `request(url, options)`; the result `none` stands for `undefined`.  The
`catch` block logs and rethrows, so it changes nothing here. -/
def request (srv : Server) : Nat → World → String → Options → Outcome (Option Response) × World
  | 0, w, _, _ => (.outOfFuel, w)
  | fuel + 1, w, url, options =>
    if truthy w.accessToken = false then
      (.threw (.error "No access token available"), w)
    else
      match fetch srv w (requestCall w url options) with
      | (.failure e, w1) => (.threw e, w1)
      | (.response response, w1) =>
        let w2 := adoptHeaderTokens w1 response
        if response.status = 401 then
          match refreshTokenManually srv w2 with
          | (.returned true, w3) => request srv fuel w3 url options
          | (.returned false, w3) =>
            (.returned none, { clearTokens w3 with location := some "/login" })
          | (.threw e, w3) => (.threw e, w3)
          | (.outOfFuel, w3) => (.outOfFuel, w3)
        else (.returned (some response), w2)

/-- The state in which `request` examines the status of the response `r` to
its call: the call has been recorded and the rotation headers handled. -/
def atStatusCheck (srv : Server) (w : World) (url : String) (options : Options)
    (r : Response) : World :=
  adoptHeaderTokens (fetch srv w (requestCall w url options)).2 r

/-- The call `login` passes to `fetch`. -/
def loginCall (w : World) (username password : JsVal) : FetchCall :=
  { url := w.baseURL ++ "/auth/login"
    method := some "POST"
    headers := [("Content-Type", "application/json")]
    body := some (.json (.obj (.cons "username" username (.cons "password" password .nil)))) }

/-- `login(username, password)`. -/
def login (srv : Server) (w : World) (username password : JsVal) : Outcome JsVal × World :=
  match fetch srv w (loginCall w username password) with
  | (.failure e, w1) => (.threw e, w1)
  | (.response response, w1) =>
    if response.ok then
      match response.json with
      | none => (.threw .syntaxError, w1)
      | some data =>
        match envelopeTokens data "tokens" with
        | .error e => (.threw e, w1)
        | .ok (access_token, refresh_token) =>
          (.returned data, setTokens w1 access_token refresh_token)
    else (.threw (.error "Login failed"), w1)

/-- `logout()`: whatever the request does, `finally` clears the tokens. -/
def logout (srv : Server) (fuel : Nat) (w : World) : Outcome Unit × World :=
  match request srv fuel w "/auth/logout" { method := some "POST" } with
  | (.outOfFuel, w1) => (.outOfFuel, w1)
  | (.returned _, w1) => (.returned (), clearTokens w1)
  | (.threw _, w1) => (.returned (), clearTokens w1)

/-- What `getProfile` and `updateProfile` do with the result of `request`:
`failMessage` is the message of the error thrown on an answer that is not ok. -/
def readEnvelope (failMessage : String) (res : Outcome (Option Response) × World) :
    Outcome JsVal × World :=
  match res with
  | (.outOfFuel, w1) => (.outOfFuel, w1)
  | (.threw e, w1) => (.threw e, w1)
  | (.returned none, w1) => (.threw .typeError, w1)
  | (.returned (some response), w1) =>
    if response.ok then
      match response.json with
      | none => (.threw .syntaxError, w1)
      | some data =>
        match data.prop "data" with
        | .error e => (.threw e, w1)
        | .ok inner =>
          match inner.prop "token_refreshed" with
          | .error e => (.threw e, w1)
          | .ok flag =>
            if truthy flag = true then
              match envelopeTokens data "new_tokens" with
              | .error e => (.threw e, w1)
              | .ok (access_token, refresh_token) =>
                (.returned data, setTokens w1 access_token refresh_token)
            else (.returned data, w1)
    else (.threw (.error failMessage), w1)

/-- `getProfile()`. -/
def getProfile (srv : Server) (fuel : Nat) (w : World) : Outcome JsVal × World :=
  readEnvelope "Failed to get profile" (request srv fuel w "/auth/profile" {})

/-- `updateProfile(profileData)`. -/
def updateProfile (srv : Server) (fuel : Nat) (w : World) (profileData : JsVal) :
    Outcome JsVal × World :=
  readEnvelope "Failed to update profile"
    (request srv fuel w "/auth/profile"
      { method := some "PUT", body := some (.json profileData) })

/-! ## Sequences of operations -/

/-- One call of a method of the manager from outside, with its arguments and,
for the methods that go through `request`, the recursion budget. -/
inductive Op where
  | setTokens (accessToken refreshToken : JsVal)
  | clearTokens
  | request (fuel : Nat) (url : String) (options : Options)
  | refreshTokenManually
  | login (username password : JsVal)
  | logout (fuel : Nat)
  | getProfile (fuel : Nat)
  | updateProfile (fuel : Nat) (profileData : JsVal)

/-- The state an operation leaves behind. -/
def Op.run (srv : Server) (w : World) : Op → World
  | .setTokens a r => AuthManager.setTokens w a r
  | .clearTokens => AuthManager.clearTokens w
  | .request fuel url options => (AuthManager.request srv fuel w url options).2
  | .refreshTokenManually => (AuthManager.refreshTokenManually srv w).2
  | .login username password => (AuthManager.login srv w username password).2
  | .logout fuel => (AuthManager.logout srv fuel w).2
  | .getProfile fuel => (AuthManager.getProfile srv fuel w).2
  | .updateProfile fuel profileData => (AuthManager.updateProfile srv fuel w profileData).2

/-- The state after a sequence of operations. -/
def runAll (srv : Server) (w : World) (ops : List Op) : World :=
  ops.foldl (Op.run srv) w

/-! ## Predicates used in the statements -/

/-- Reading key `k` of the store back gives the value `v`. -/
def storeHolds (w : World) (k : String) (v : JsVal) : Prop :=
  ofNullable (getItem w.localStorage k) = v

/-- The access token and the refresh token are both present or both absent,
where absent is what `!token` tests. -/
def paired (w : World) : Prop :=
  truthy w.accessToken = truthy w.refreshToken

/-- Every pair of tokens a response body of the server carries, under
`data.tokens` or under `data.new_tokens`, is matched. -/
def ServerPairsMatched (srv : Server) : Prop :=
  ∀ (hist : List FetchCall) (c : FetchCall) (r : Response) (data a b : JsVal),
    srv hist c = .response r → r.json = some data →
    (envelopeTokens data "tokens" = .ok (a, b) ∨ envelopeTokens data "new_tokens" = .ok (a, b)) →
    truthy a = truthy b

/-- A server that reports every refresh at `refreshURL` as successful, with a
pair of present tokens, and answers 401 to every other call. -/
def Stubborn (srv : Server) (refreshURL : String) : Prop :=
  ∀ (hist : List FetchCall) (c : FetchCall),
    (c.url = refreshURL →
      ∃ r data a b, srv hist c = .response r ∧ r.ok = true ∧ r.json = some data ∧
        envelopeTokens data "tokens" = .ok (a, b) ∧ truthy a = true ∧ truthy b = true) ∧
    (c.url ≠ refreshURL → ∃ r, srv hist c = .response r ∧ r.status = 401)

/-! ## Concrete servers and states -/

/-- The body `{ data: { tokens: { access_token, refresh_token } } }`. -/
def tokensEnvelope (a r : JsVal) : JsVal :=
  .obj (.cons "data"
    (.obj (.cons "tokens" (.obj (.cons "access_token" a (.cons "refresh_token" r .nil))) .nil))
    .nil)

/-- A manager built over a store that holds the pair `("A1", "R1")`. -/
def sampleWorld : World :=
  new [("access_token", "A1"), ("refresh_token", "R1")]

/-- A manager built over an empty store. -/
def emptyWorld : World :=
  new []

/-- A server that answers 200 to every call, with an empty body. -/
def plainServer : Server :=
  fun _ _ => .response { status := 200 }

/-- A server whose refresh endpoint always rotates to `("A2", "R2")` and that
answers 401 to any other call as long as fewer than `n` calls have been made
in all, 200 afterwards. -/
def expiringServer (n : Nat) : Server :=
  fun hist c =>
    if c.url = "/api/auth/refresh" then
      .response { status := 200, json := some (tokensEnvelope (.str "A2") (.str "R2")) }
    else if hist.length < n then .response { status := 401 }
    else .response { status := 200 }

/-- A server whose refresh endpoint always rotates to `("A2", "R2")` and that
answers 401 to every other call. -/
def stubbornServer : Server :=
  fun _ c =>
    if c.url = "/api/auth/refresh" then
      .response { status := 200, json := some (tokensEnvelope (.str "A2") (.str "R2")) }
    else .response { status := 401 }

/-- A server whose refresh endpoint answers 403 and that answers 401 to every
other call. -/
def rejectingServer : Server :=
  fun _ c =>
    if c.url = "/api/auth/refresh" then .response { status := 403 }
    else .response { status := 401 }

/-- A server that answers 200 with rotation headers `("A3", "R3")`. -/
def rotatingServer : Server :=
  fun _ _ =>
    .response
      { status := 200
        xNewAccessToken := some "A3"
        xNewRefreshToken := some "R3"
        xTokenRefreshed := some "true" }

/-! ## The store -/

theorem getItem_removeItem_self (st : Storage) (k : String) :
    getItem (removeItem st k) k = none := by
  induction st with
  | nil => rfl
  | cons p rest ih =>
    obtain ⟨a, b⟩ := p
    by_cases h : a = k
    · simpa [removeItem, List.filter_cons, h] using ih
    · have hcons : removeItem ((a, b) :: rest) k = (a, b) :: removeItem rest k := by
        simp [removeItem, List.filter_cons, h]
      rw [hcons]
      simp only [getItem]
      rw [if_neg h]
      exact ih

theorem getItem_removeItem_ne (st : Storage) (k j : String) (hne : j ≠ k) :
    getItem (removeItem st k) j = getItem st j := by
  induction st with
  | nil => rfl
  | cons p rest ih =>
    obtain ⟨a, b⟩ := p
    by_cases h : a = k
    · have hdrop : removeItem ((a, b) :: rest) k = removeItem rest k := by
        simp [removeItem, List.filter_cons, h]
      rw [hdrop, ih]
      have haj : ¬ a = j := by rw [h]; exact fun e => hne e.symm
      simp [getItem, haj]
    · have hcons : removeItem ((a, b) :: rest) k = (a, b) :: removeItem rest k := by
        simp [removeItem, List.filter_cons, h]
      rw [hcons]
      simp only [getItem]
      rw [ih]

theorem getItem_setItem_self (st : Storage) (k v : String) :
    getItem (setItem st k v) k = some v := by
  simp [setItem, getItem]

theorem getItem_setItem_ne (st : Storage) (k j v : String) (hne : j ≠ k) :
    getItem (setItem st k v) j = getItem st j := by
  have hkj : ¬ k = j := fun e => hne e.symm
  simp only [setItem, getItem]
  rw [if_neg hkj]
  exact getItem_removeItem_ne st k j hne

theorem removeItem_comm (st : Storage) (k j : String) :
    removeItem (removeItem st k) j = removeItem (removeItem st j) k := by
  simp only [removeItem, List.filter_filter]
  congr 1
  funext p
  simp [Bool.and_comm]

theorem removeItem_idem (st : Storage) (k : String) :
    removeItem (removeItem st k) k = removeItem st k := by
  simp only [removeItem, List.filter_filter]
  congr 1
  funext p
  simp

theorem clearTokens_idem (w : World) : clearTokens (clearTokens w) = clearTokens w := by
  simp only [clearTokens]
  congr 1
  rw [removeItem_comm (removeItem (removeItem w.localStorage "access_token") "refresh_token")
    "access_token" "refresh_token", removeItem_idem]
  rw [removeItem_comm (removeItem w.localStorage "access_token") "refresh_token" "access_token",
    removeItem_idem]

/-! ## setTokens and clearTokens -/

theorem setTokens_store_access (w : World) (a r : JsVal) :
    getItem (setTokens w a r).localStorage "access_token" = some (toStr a) := by
  simp only [setTokens]
  rw [getItem_setItem_ne _ _ _ _ (by decide), getItem_setItem_self]

theorem setTokens_store_refresh (w : World) (a r : JsVal) :
    getItem (setTokens w a r).localStorage "refresh_token" = some (toStr r) := by
  simp only [setTokens]
  rw [getItem_setItem_self]

theorem clearTokens_store_access (w : World) :
    getItem (clearTokens w).localStorage "access_token" = none := by
  simp only [clearTokens]
  rw [getItem_removeItem_ne _ _ _ (by decide), getItem_removeItem_self]

theorem clearTokens_store_refresh (w : World) :
    getItem (clearTokens w).localStorage "refresh_token" = none := by
  simp only [clearTokens]
  rw [getItem_removeItem_self]

/-! ## refreshTokenManually -/

/-- The state right after the call `c` has been handed to `fetch`. -/
theorem fetch_snd (srv : Server) (w : World) (c : FetchCall) :
    (fetch srv w c).2 = { w with fetched := w.fetched ++ [c] } := rfl

theorem fetch_fst (srv : Server) (w : World) (c : FetchCall) :
    (fetch srv w c).1 = srv w.fetched c := rfl

/-- What `refreshTokenManually` does, by the answer of the server. -/
theorem refreshTokenManually_eq (srv : Server) (w : World) :
    refreshTokenManually srv w =
      if truthy w.refreshToken = false then (.returned false, w)
      else
        match srv w.fetched (refreshCall w) with
        | .failure _ => (.returned false, (fetch srv w (refreshCall w)).2)
        | .response r =>
          if r.ok = true then
            match r.json with
            | none => (.returned false, (fetch srv w (refreshCall w)).2)
            | some data =>
              match envelopeTokens data "tokens" with
              | .error _ => (.returned false, (fetch srv w (refreshCall w)).2)
              | .ok (a, b) => (.returned true, setTokens (fetch srv w (refreshCall w)).2 a b)
          else (.returned false, (fetch srv w (refreshCall w)).2) := by
  unfold refreshTokenManually refreshAttempt
  by_cases h : truthy w.refreshToken = false
  · simp [h]
  · simp only [h, if_false, fetch]
    cases hs : srv w.fetched (refreshCall w) with
    | failure e => simp
    | response r =>
      by_cases hok : r.ok = true
      · simp only [hok, if_true]
        cases hj : r.json with
        | none => simp
        | some data =>
          cases he : envelopeTokens data "tokens" with
          | error e => simp [he]
          | ok p => obtain ⟨a, b⟩ := p; simp [he]
      · simp [hok]

theorem refreshTokenManually_returns (srv : Server) (w : World) :
    ∃ b, (refreshTokenManually srv w).1 = .returned b := by
  rw [refreshTokenManually_eq]
  split
  · exact ⟨false, rfl⟩
  · split
    · exact ⟨false, rfl⟩
    · split
      · split
        · exact ⟨false, rfl⟩
        · split
          · exact ⟨false, rfl⟩
          · exact ⟨true, rfl⟩
      · exact ⟨false, rfl⟩

theorem refreshTokenManually_true (srv : Server) (w : World)
    (h : (refreshTokenManually srv w).1 = .returned true) :
    truthy w.refreshToken = true ∧
    ∃ r data a b, srv w.fetched (refreshCall w) = .response r ∧ r.ok = true ∧
      r.json = some data ∧ envelopeTokens data "tokens" = .ok (a, b) ∧
      refreshTokenManually srv w = (.returned true, setTokens (fetch srv w (refreshCall w)).2 a b) := by
  rw [refreshTokenManually_eq] at h ⊢
  by_cases ht : truthy w.refreshToken = false
  · simp [ht] at h
  · simp only [ht, if_false] at h ⊢
    refine ⟨trivial, ?_⟩
    cases hs : srv w.fetched (refreshCall w) with
    | failure e => simp [hs] at h
    | response r =>
      simp only [hs] at h ⊢
      by_cases hok : r.ok = true
      · simp only [hok, if_true] at h ⊢
        cases hj : r.json with
        | none => simp [hj] at h
        | some data =>
          simp only [hj] at h ⊢
          cases he : envelopeTokens data "tokens" with
          | error e => simp [he] at h
          | ok p =>
            obtain ⟨a, b⟩ := p
            exact ⟨r, data, a, b, rfl, hok, hj, he, by simp⟩
      · simp [hok] at h

theorem refreshTokenManually_no_token (srv : Server) (w : World)
    (h : truthy w.refreshToken = false) :
    refreshTokenManually srv w = (.returned false, w) := by
  rw [refreshTokenManually_eq]; simp [h]

theorem refreshTokenManually_not_ok (srv : Server) (w : World) (r : Response)
    (hs : srv w.fetched (refreshCall w) = .response r) (hok : r.ok = false) :
    (refreshTokenManually srv w).1 = .returned false ∧
    (refreshTokenManually srv w).2.accessToken = w.accessToken ∧
    (refreshTokenManually srv w).2.refreshToken = w.refreshToken ∧
    (refreshTokenManually srv w).2.localStorage = w.localStorage := by
  rw [refreshTokenManually_eq]
  by_cases ht : truthy w.refreshToken = false
  · simp [ht]
  · simp [ht, hs, hok, fetch]

theorem refreshTokenManually_failure (srv : Server) (w : World) (e : JsError)
    (hs : srv w.fetched (refreshCall w) = .failure e) :
    (refreshTokenManually srv w).1 = .returned false ∧
    (refreshTokenManually srv w).2.accessToken = w.accessToken ∧
    (refreshTokenManually srv w).2.refreshToken = w.refreshToken ∧
    (refreshTokenManually srv w).2.localStorage = w.localStorage := by
  rw [refreshTokenManually_eq]
  by_cases ht : truthy w.refreshToken = false
  · simp [ht]
  · simp [ht, hs, fetch]

/-! ## One round of request -/

theorem request_falsy_token (srv : Server) (fuel : Nat) (w : World) (url : String)
    (options : Options) (h : truthy w.accessToken = false) :
    request srv (fuel + 1) w url options = (.threw (.error "No access token available"), w) := by
  simp [request, h]

theorem request_response (srv : Server) (fuel : Nat) (w : World) (url : String)
    (options : Options) (r : Response) (htok : truthy w.accessToken = true)
    (hs : srv w.fetched (requestCall w url options) = .response r) :
    request srv (fuel + 1) w url options =
      if r.status = 401 then
        match refreshTokenManually srv
            (adoptHeaderTokens (fetch srv w (requestCall w url options)).2 r) with
        | (.returned true, w3) => request srv fuel w3 url options
        | (.returned false, w3) =>
          (.returned none, { clearTokens w3 with location := some "/login" })
        | (.threw e, w3) => (.threw e, w3)
        | (.outOfFuel, w3) => (.outOfFuel, w3)
      else (.returned (some r), adoptHeaderTokens (fetch srv w (requestCall w url options)).2 r) := by
  simp only [request, htok, fetch, hs]
  rfl

theorem request_failure (srv : Server) (fuel : Nat) (w : World) (url : String)
    (options : Options) (e : JsError) (htok : truthy w.accessToken = true)
    (hs : srv w.fetched (requestCall w url options) = .failure e) :
    request srv (fuel + 1) w url options =
      (.threw e, (fetch srv w (requestCall w url options)).2) := by
  simp [request, htok, fetch, hs]

theorem request_refresh_failed (srv : Server) (fuel : Nat) (w : World) (url : String)
    (options : Options) (r : Response) (htok : truthy w.accessToken = true)
    (hs : srv w.fetched (requestCall w url options) = .response r)
    (h401 : r.status = 401)
    (hfail : (refreshTokenManually srv
      (adoptHeaderTokens (fetch srv w (requestCall w url options)).2 r)).1 = .returned false) :
    request srv (fuel + 1) w url options =
      (.returned none,
        { clearTokens (refreshTokenManually srv
            (adoptHeaderTokens (fetch srv w (requestCall w url options)).2 r)).2 with
          location := some "/login" }) := by
  rw [request_response srv fuel w url options r htok hs, if_pos h401]
  generalize refreshTokenManually srv
      (adoptHeaderTokens (fetch srv w (requestCall w url options)).2 r) = res at hfail ⊢
  obtain ⟨o, w3⟩ := res
  simp only at hfail
  subst hfail
  rfl

theorem request_refresh_ok (srv : Server) (fuel : Nat) (w : World) (url : String)
    (options : Options) (r : Response) (w3 : World) (htok : truthy w.accessToken = true)
    (hs : srv w.fetched (requestCall w url options) = .response r)
    (h401 : r.status = 401)
    (href : refreshTokenManually srv
      (adoptHeaderTokens (fetch srv w (requestCall w url options)).2 r) = (.returned true, w3)) :
    request srv (fuel + 1) w url options = request srv fuel w3 url options := by
  rw [request_response srv fuel w url options r htok hs, if_pos h401, href]

theorem request_other_status (srv : Server) (fuel : Nat) (w : World) (url : String)
    (options : Options) (r : Response) (htok : truthy w.accessToken = true)
    (hs : srv w.fetched (requestCall w url options) = .response r)
    (hne : r.status ≠ 401) :
    request srv (fuel + 1) w url options =
      (.returned (some r), adoptHeaderTokens (fetch srv w (requestCall w url options)).2 r) := by
  rw [request_response srv fuel w url options r htok hs, if_neg hne]


/-! ## What the operations leave alone -/

theorem adoptHeaderTokens_cases (w : World) (r : Response) :
    adoptHeaderTokens w r = w ∨
    ∃ a b : String, a ≠ "" ∧ b ≠ "" ∧ r.xNewAccessToken = some a ∧ r.xNewRefreshToken = some b ∧
      r.xTokenRefreshed = some "true" ∧ adoptHeaderTokens w r = setTokens w (.str a) (.str b) := by
  unfold adoptHeaderTokens
  simp only
  split
  · rename_i h
    obtain ⟨h1, h2, h3⟩ := h
    right
    cases ha : r.xNewAccessToken with
    | none => rw [ha] at h2; simp [ofNullable, truthy] at h2
    | some a =>
      cases hb : r.xNewRefreshToken with
      | none => rw [hb] at h3; simp [ofNullable, truthy] at h3
      | some b =>
        cases hc : r.xTokenRefreshed with
        | none => rw [hc] at h1; simp [ofNullable] at h1
        | some c =>
          rw [ha] at h2; rw [hb] at h3; rw [hc] at h1
          simp only [ofNullable, truthy, bne_iff_ne, ne_eq] at h2 h3
          simp only [ofNullable, JsVal.str.injEq] at h1
          exact ⟨a, b, h2, h3, rfl, rfl, by rw [h1], rfl⟩
  · left; rfl

theorem adoptHeaderTokens_adopts (w : World) (r : Response) (a b : String)
    (hflag : r.xTokenRefreshed = some "true") (ha : r.xNewAccessToken = some a)
    (hb : r.xNewRefreshToken = some b) (hane : a ≠ "") (hbne : b ≠ "") :
    adoptHeaderTokens w r = setTokens w (.str a) (.str b) := by
  unfold adoptHeaderTokens
  simp [hflag, ha, hb, ofNullable, truthy, hane, hbne]

theorem adoptHeaderTokens_frame (w : World) (r : Response) :
    (adoptHeaderTokens w r).baseURL = w.baseURL ∧
    (adoptHeaderTokens w r).fetched = w.fetched ∧
    (adoptHeaderTokens w r).location = w.location := by
  rcases adoptHeaderTokens_cases w r with h | ⟨a, b, _, _, _, _, _, h⟩ <;> rw [h] <;>
    exact ⟨rfl, rfl, rfl⟩

theorem adoptHeaderTokens_truthy (w : World) (r : Response)
    (ha : truthy w.accessToken = true) (hr : truthy w.refreshToken = true) :
    truthy (adoptHeaderTokens w r).accessToken = true ∧
    truthy (adoptHeaderTokens w r).refreshToken = true := by
  rcases adoptHeaderTokens_cases w r with h | ⟨a, b, hane, hbne, _, _, _, h⟩ <;> rw [h]
  · exact ⟨ha, hr⟩
  · simp [setTokens, truthy, hane, hbne]

theorem adoptHeaderTokens_paired (w : World) (r : Response) (h : paired w) :
    paired (adoptHeaderTokens w r) := by
  rcases adoptHeaderTokens_cases w r with h1 | ⟨a, b, hane, hbne, _, _, _, h1⟩ <;> rw [h1]
  · exact h
  · have ha : truthy (JsVal.str a) = true := by simp [truthy, hane]
    have hb : truthy (JsVal.str b) = true := by simp [truthy, hbne]
    show truthy (JsVal.str a) = truthy (JsVal.str b)
    rw [ha, hb]

theorem refreshTokenManually_frame (srv : Server) (w : World) :
    (refreshTokenManually srv w).2.baseURL = w.baseURL ∧
    ((refreshTokenManually srv w).2.fetched = w.fetched ∨
      (refreshTokenManually srv w).2.fetched = w.fetched ++ [refreshCall w]) := by
  rw [refreshTokenManually_eq]
  split
  · exact ⟨rfl, Or.inl rfl⟩
  · split
    · exact ⟨rfl, Or.inr rfl⟩
    · split
      · split
        · exact ⟨rfl, Or.inr rfl⟩
        · split
          · exact ⟨rfl, Or.inr rfl⟩
          · exact ⟨rfl, Or.inr rfl⟩
      · exact ⟨rfl, Or.inr rfl⟩

theorem refreshTokenManually_fetched_of_truthy (srv : Server) (w : World)
    (h : truthy w.refreshToken = true) :
    (refreshTokenManually srv w).2.fetched = w.fetched ++ [refreshCall w] := by
  rw [refreshTokenManually_eq]
  have hf : ¬ truthy w.refreshToken = false := by rw [h]; decide
  rw [if_neg hf]
  split
  · rfl
  · split
    · split
      · rfl
      · split
        · rfl
        · rfl
    · rfl

theorem refreshTokenManually_false (srv : Server) (w : World)
    (h : (refreshTokenManually srv w).1 = .returned false) :
    (refreshTokenManually srv w).2.accessToken = w.accessToken ∧
    (refreshTokenManually srv w).2.refreshToken = w.refreshToken ∧
    (refreshTokenManually srv w).2.localStorage = w.localStorage ∧
    (refreshTokenManually srv w).2.location = w.location := by
  rw [refreshTokenManually_eq] at h ⊢
  by_cases ht : truthy w.refreshToken = false
  · simp [ht]
  · simp only [ht, if_false] at h ⊢
    cases hs : srv w.fetched (refreshCall w) with
    | failure e => exact ⟨rfl, rfl, rfl, rfl⟩
    | response r =>
      simp only [hs] at h ⊢
      by_cases hok : r.ok = true
      · simp only [hok, if_true] at h ⊢
        cases hj : r.json with
        | none => exact ⟨rfl, rfl, rfl, rfl⟩
        | some data =>
          simp only [hj] at h ⊢
          cases he : envelopeTokens data "tokens" with
          | error e => simp only [he]; exact ⟨rfl, rfl, rfl, rfl⟩
          | ok p =>
            obtain ⟨a, b⟩ := p
            simp [he] at h
      · simp only [hok]
        exact ⟨rfl, rfl, rfl, rfl⟩

theorem refreshTokenManually_paired (srv : Server) (w : World) (hsrv : ServerPairsMatched srv)
    (h : paired w) : paired (refreshTokenManually srv w).2 := by
  rcases (refreshTokenManually_returns srv w) with ⟨b, hb⟩
  cases b with
  | true =>
    obtain ⟨_, r, data, a, c, hs, _, hj, he, heq⟩ := refreshTokenManually_true srv w hb
    rw [heq]
    exact hsrv w.fetched (refreshCall w) r data a c hs hj (Or.inl he)
  | false =>
    obtain ⟨h1, h2, _, _⟩ := refreshTokenManually_false srv w hb
    unfold paired
    rw [h1, h2]
    exact h

/-- Every call of `request` only adds calls to the record and keeps `baseURL`. -/
theorem request_frame (srv : Server) (url : String) (options : Options) :
    ∀ (fuel : Nat) (w : World),
      (request srv fuel w url options).2.baseURL = w.baseURL ∧
      ∃ rest, (request srv fuel w url options).2.fetched = w.fetched ++ rest := by
  intro fuel
  induction fuel with
  | zero => intro w; exact ⟨rfl, [], by simp [request]⟩
  | succ n ih =>
    intro w
    by_cases htok : truthy w.accessToken = false
    · rw [request_falsy_token srv n w url options htok]
      exact ⟨rfl, [], by simp⟩
    · have htok1 : truthy w.accessToken = true := by simpa using htok
      cases hs : srv w.fetched (requestCall w url options) with
      | failure e =>
        rw [request_failure srv n w url options e htok1 hs]
        exact ⟨rfl, [requestCall w url options], rfl⟩
      | response r =>
        have hfr := adoptHeaderTokens_frame (fetch srv w (requestCall w url options)).2 r
        by_cases h401 : r.status = 401
        · obtain ⟨b, hb⟩ := refreshTokenManually_returns srv
            (adoptHeaderTokens (fetch srv w (requestCall w url options)).2 r)
          have hrf := refreshTokenManually_frame srv
            (adoptHeaderTokens (fetch srv w (requestCall w url options)).2 r)
          have hlog : ∃ rest, (refreshTokenManually srv
              (adoptHeaderTokens (fetch srv w (requestCall w url options)).2 r)).2.fetched
                = w.fetched ++ rest := by
            rcases hrf.2 with h | h
            · exact ⟨[requestCall w url options], by rw [h, hfr.2.1]; rfl⟩
            · exact ⟨[requestCall w url options,
                refreshCall (adoptHeaderTokens (fetch srv w (requestCall w url options)).2 r)],
                by rw [h, hfr.2.1]; simp [fetch]⟩
          have hbase : (refreshTokenManually srv
              (adoptHeaderTokens (fetch srv w (requestCall w url options)).2 r)).2.baseURL
                = w.baseURL := by rw [hrf.1, hfr.1]; rfl
          cases b with
          | true =>
            have heq : refreshTokenManually srv
                (adoptHeaderTokens (fetch srv w (requestCall w url options)).2 r)
                = (.returned true, (refreshTokenManually srv
                  (adoptHeaderTokens (fetch srv w (requestCall w url options)).2 r)).2) := by
              rw [← hb]
            rw [request_refresh_ok srv n w url options r _ htok1 hs h401 heq]
            obtain ⟨hb2, rest2, hrest2⟩ := ih (refreshTokenManually srv
                  (adoptHeaderTokens (fetch srv w (requestCall w url options)).2 r)).2
            obtain ⟨rest1, hrest1⟩ := hlog
            exact ⟨by rw [hb2, hbase], rest1 ++ rest2, by rw [hrest2, hrest1, List.append_assoc]⟩
          | false =>
            rw [request_refresh_failed srv n w url options r htok1 hs h401 hb]
            exact ⟨hbase, hlog⟩
        · rw [request_other_status srv n w url options r htok1 hs h401]
          exact ⟨hfr.1, [requestCall w url options], by rw [hfr.2.1]; rfl⟩

/-! ## The pair of tokens along a run -/

/-- The three ways one round of `request` with a token can go on a response. -/
theorem request_round (srv : Server) (fuel : Nat) (w : World) (url : String)
    (options : Options) (r : Response) (htok : truthy w.accessToken = true)
    (hs : srv w.fetched (requestCall w url options) = .response r) :
    (r.status ≠ 401 ∧ request srv (fuel + 1) w url options =
      (.returned (some r), adoptHeaderTokens (fetch srv w (requestCall w url options)).2 r)) ∨
    (r.status = 401 ∧
      (refreshTokenManually srv
        (adoptHeaderTokens (fetch srv w (requestCall w url options)).2 r)).1 = .returned false ∧
      request srv (fuel + 1) w url options =
        (.returned none,
          { clearTokens (refreshTokenManually srv
              (adoptHeaderTokens (fetch srv w (requestCall w url options)).2 r)).2 with
            location := some "/login" })) ∨
    (r.status = 401 ∧
      (refreshTokenManually srv
        (adoptHeaderTokens (fetch srv w (requestCall w url options)).2 r)).1 = .returned true ∧
      request srv (fuel + 1) w url options =
        request srv fuel (refreshTokenManually srv
          (adoptHeaderTokens (fetch srv w (requestCall w url options)).2 r)).2 url options) := by
  by_cases h401 : r.status = 401
  · obtain ⟨b, hb⟩ := refreshTokenManually_returns srv
      (adoptHeaderTokens (fetch srv w (requestCall w url options)).2 r)
    cases b with
    | true =>
      right; right
      refine ⟨h401, hb, ?_⟩
      apply request_refresh_ok srv fuel w url options r _ htok hs h401
      rw [← hb]
    | false =>
      right; left
      exact ⟨h401, hb, request_refresh_failed srv fuel w url options r htok hs h401 hb⟩
  · left
    exact ⟨h401, request_other_status srv fuel w url options r htok hs h401⟩

theorem request_paired (srv : Server) (hsrv : ServerPairsMatched srv) (url : String)
    (options : Options) :
    ∀ (fuel : Nat) (w : World), paired w → paired (request srv fuel w url options).2 := by
  intro fuel
  induction fuel with
  | zero => intro w h; exact h
  | succ n ih =>
    intro w h
    by_cases htok : truthy w.accessToken = false
    · rw [request_falsy_token srv n w url options htok]; exact h
    · have htok1 : truthy w.accessToken = true := by simpa using htok
      cases hs : srv w.fetched (requestCall w url options) with
      | failure e =>
        rw [request_failure srv n w url options e htok1 hs]; exact h
      | response r =>
        have h2 : paired (adoptHeaderTokens (fetch srv w (requestCall w url options)).2 r) :=
          adoptHeaderTokens_paired _ r h
        rcases request_round srv n w url options r htok1 hs with
          ⟨_, heq⟩ | ⟨_, _, heq⟩ | ⟨_, _, heq⟩
        · rw [heq]; exact h2
        · rw [heq]; rfl
        · rw [heq]
          exact ih _ (refreshTokenManually_paired srv _ hsrv h2)

/-- A response that `request` returns is an answer of the server. -/
theorem request_returned (srv : Server) (url : String) (options : Options) (r : Response) :
    ∀ (fuel : Nat) (w : World), (request srv fuel w url options).1 = .returned (some r) →
      ∃ hist c, srv hist c = .response r := by
  intro fuel
  induction fuel with
  | zero => intro w h; simp [request] at h
  | succ n ih =>
    intro w h
    by_cases htok : truthy w.accessToken = false
    · rw [request_falsy_token srv n w url options htok] at h; simp at h
    · have htok1 : truthy w.accessToken = true := by simpa using htok
      cases hs : srv w.fetched (requestCall w url options) with
      | failure e =>
        rw [request_failure srv n w url options e htok1 hs] at h; simp at h
      | response r1 =>
        rcases request_round srv n w url options r1 htok1 hs with
          ⟨_, heq⟩ | ⟨_, _, heq⟩ | ⟨_, _, heq⟩
        · rw [heq] at h
          simp only [Outcome.returned.injEq, Option.some.injEq] at h
          exact ⟨w.fetched, requestCall w url options, by rw [hs, h]⟩
        · rw [heq] at h; simp at h
        · rw [heq] at h
          exact ih _ h

theorem login_paired (srv : Server) (hsrv : ServerPairsMatched srv) (w : World)
    (username password : JsVal) (h : paired w) :
    paired (login srv w username password).2 := by
  unfold login
  simp only [fetch]
  cases hs : srv w.fetched (loginCall w username password) with
  | failure e => exact h
  | response r =>
    simp only
    split
    · cases hj : r.json with
      | none => exact h
      | some data =>
        simp only
        cases he : envelopeTokens data "tokens" with
        | error e => exact h
        | ok p =>
          obtain ⟨a, b⟩ := p
          exact hsrv w.fetched _ r data a b hs hj (Or.inl he)
    · exact h

theorem logout_paired (srv : Server) (hsrv : ServerPairsMatched srv) (fuel : Nat) (w : World)
    (h : paired w) : paired (logout srv fuel w).2 := by
  have hreq := request_paired srv hsrv "/auth/logout" { method := some "POST" } fuel w h
  unfold logout
  split
  · rename_i w1 heq; rw [heq] at hreq; exact hreq
  · rfl
  · rfl

theorem readEnvelope_paired (srv : Server) (hsrv : ServerPairsMatched srv) (msg : String)
    (res : Outcome (Option Response) × World) (hres : paired res.2)
    (hfrom : ∀ r, res.1 = .returned (some r) → ∃ hist c, srv hist c = .response r) :
    paired (readEnvelope msg res).2 := by
  obtain ⟨o, w1⟩ := res
  cases o with
  | outOfFuel => exact hres
  | threw e => exact hres
  | returned v =>
    cases v with
    | none => exact hres
    | some r =>
      obtain ⟨hist, c, hs⟩ := hfrom r rfl
      unfold readEnvelope
      simp only
      split
      · cases hj : r.json with
        | none => exact hres
        | some data =>
          simp only
          cases hd : data.prop "data" with
          | error e => exact hres
          | ok inner =>
            simp only
            cases hf : inner.prop "token_refreshed" with
            | error e => exact hres
            | ok flag =>
              simp only
              split
              · cases he : envelopeTokens data "new_tokens" with
                | error e => exact hres
                | ok p =>
                  obtain ⟨a, b⟩ := p
                  exact hsrv hist c r data a b hs hj (Or.inr he)
              · exact hres
      · exact hres

theorem getProfile_paired (srv : Server) (hsrv : ServerPairsMatched srv) (fuel : Nat) (w : World)
    (h : paired w) : paired (getProfile srv fuel w).2 :=
  readEnvelope_paired srv hsrv _ _ (request_paired srv hsrv _ _ fuel w h)
    (fun r hr => request_returned srv _ _ r fuel w hr)

theorem updateProfile_paired (srv : Server) (hsrv : ServerPairsMatched srv) (fuel : Nat)
    (w : World) (profileData : JsVal) (h : paired w) :
    paired (updateProfile srv fuel w profileData).2 :=
  readEnvelope_paired srv hsrv _ _ (request_paired srv hsrv _ _ fuel w h)
    (fun r hr => request_returned srv _ _ r fuel w hr)

theorem runAll_paired (srv : Server) (hsrv : ServerPairsMatched srv) :
    ∀ (ops : List Op) (w : World), paired w →
      (∀ a r, Op.setTokens a r ∈ ops → truthy a = truthy r) → paired (runAll srv w ops) := by
  intro ops
  induction ops with
  | nil => intro w h _; exact h
  | cons op rest ih =>
    intro w h hops
    show paired (runAll srv (Op.run srv w op) rest)
    apply ih
    · cases op with
      | setTokens a r => exact hops a r (List.mem_cons_self _ _)
      | clearTokens => rfl
      | request fuel url options => exact request_paired srv hsrv url options fuel w h
      | refreshTokenManually => exact refreshTokenManually_paired srv w hsrv h
      | login u p => exact login_paired srv hsrv w u p h
      | logout fuel => exact logout_paired srv hsrv fuel w h
      | getProfile fuel => exact getProfile_paired srv hsrv fuel w h
      | updateProfile fuel d => exact updateProfile_paired srv hsrv fuel w d h
    · intro a r hmem
      exact hops a r (List.mem_cons_of_mem _ hmem)

/-! ## A server that never stops answering 401 -/

theorem request_stubborn (srv : Server) (url : String) (options : Options) (base : String)
    (hsrv : Stubborn srv (base ++ "/auth/refresh"))
    (hurl : base ++ url ≠ base ++ "/auth/refresh") :
    ∀ (fuel : Nat) (w : World), w.baseURL = base → truthy w.accessToken = true →
      truthy w.refreshToken = true →
      (request srv fuel w url options).1 = .outOfFuel ∧
      (request srv fuel w url options).2.fetched.length = w.fetched.length + 2 * fuel := by
  intro fuel
  induction fuel with
  | zero => intro w _ _ _; exact ⟨rfl, rfl⟩
  | succ n ih =>
    intro w hbase htok href
    have hcurl : (requestCall w url options).url ≠ base ++ "/auth/refresh" := by
      show w.baseURL ++ url ≠ base ++ "/auth/refresh"
      rw [hbase]; exact hurl
    obtain ⟨r, hs, h401⟩ := (hsrv w.fetched (requestCall w url options)).2 hcurl
    have hfr := adoptHeaderTokens_frame (fetch srv w (requestCall w url options)).2 r
    have htr := adoptHeaderTokens_truthy (fetch srv w (requestCall w url options)).2 r htok href
    generalize hw2 : adoptHeaderTokens (fetch srv w (requestCall w url options)).2 r = w2
      at hfr htr
    have hrurl : (refreshCall w2).url = base ++ "/auth/refresh" := by
      show w2.baseURL ++ "/auth/refresh" = base ++ "/auth/refresh"
      rw [hfr.1]; show w.baseURL ++ _ = _; rw [hbase]
    obtain ⟨r2, data, a, b, hs2, hok, hj, he, ha, hb⟩ := (hsrv w2.fetched (refreshCall w2)).1 hrurl
    have hrefresh : refreshTokenManually srv w2 =
        (.returned true, setTokens (fetch srv w2 (refreshCall w2)).2 a b) := by
      rw [refreshTokenManually_eq]
      have hf : ¬ truthy w2.refreshToken = false := by rw [htr.2]; decide
      simp [hf, hs2, hok, hj, he]
    have hstep := request_refresh_ok srv n w url options r _ htok hs h401 (by rw [hw2]; exact hrefresh)
    rw [hstep]
    obtain ⟨h1, h2⟩ := ih (setTokens (fetch srv w2 (refreshCall w2)).2 a b)
      (by show w2.baseURL = base; rw [hfr.1]; exact hbase) ha hb
    refine ⟨h1, ?_⟩
    rw [h2]
    show (w2.fetched ++ [refreshCall w2]).length + 2 * n = _
    rw [hfr.2.1]
    simp [fetch]
    omega

theorem stubbornServer_stubborn : Stubborn stubbornServer ("/api" ++ "/auth/refresh") := by
  intro hist c
  constructor
  · intro h
    refine ⟨{ status := 200, json := some (tokensEnvelope (.str "A2") (.str "R2")) },
      tokensEnvelope (.str "A2") (.str "R2"), .str "A2", .str "R2", ?_, by decide, rfl, rfl,
      by decide, by decide⟩
    have h2 : c.url = "/api/auth/refresh" := h
    simp [stubbornServer, h2]
  · intro h
    have h2 : ¬ c.url = "/api/auth/refresh" := h
    exact ⟨{ status := 401 }, by simp [stubbornServer, h2], rfl⟩

/-! ## The calls a request makes -/

theorem objGet_append (a b : JsObject) (k : String) :
    objGet (a ++ b) k = (objGet b k).orElse (fun _ => objGet a k) := by
  induction a with
  | nil => cases h : objGet b k <;> simp [objGet, h]
  | cons p rest ih =>
    obtain ⟨key, value⟩ := p
    show objGet ((key, value) :: (rest ++ b)) k = _
    simp only [objGet]
    rw [ih]
    cases hb : objGet b k with
    | some v => simp
    | none => simp

/-- The first call `request` makes with a token is `requestCall`. -/
theorem request_first_call (srv : Server) (fuel : Nat) (w : World) (url : String)
    (options : Options) (htok : truthy w.accessToken = true) :
    ∃ rest, (request srv (fuel + 1) w url options).2.fetched =
      w.fetched ++ requestCall w url options :: rest := by
  cases hs : srv w.fetched (requestCall w url options) with
  | failure e =>
    rw [request_failure srv fuel w url options e htok hs]
    exact ⟨[], rfl⟩
  | response r =>
    have hfr := adoptHeaderTokens_frame (fetch srv w (requestCall w url options)).2 r
    have hrf := refreshTokenManually_frame srv
      (adoptHeaderTokens (fetch srv w (requestCall w url options)).2 r)
    have hlog : ∃ rest, (refreshTokenManually srv
        (adoptHeaderTokens (fetch srv w (requestCall w url options)).2 r)).2.fetched
          = w.fetched ++ requestCall w url options :: rest := by
      rcases hrf.2 with h | h
      · exact ⟨[], by rw [h, hfr.2.1]; rfl⟩
      · exact ⟨[refreshCall (adoptHeaderTokens (fetch srv w (requestCall w url options)).2 r)],
          by rw [h, hfr.2.1]; simp [fetch]⟩
    rcases request_round srv fuel w url options r htok hs with
      ⟨_, heq⟩ | ⟨_, _, heq⟩ | ⟨_, _, heq⟩
    · rw [heq]
      exact ⟨[], by rw [hfr.2.1]; rfl⟩
    · rw [heq]
      exact hlog
    · rw [heq]
      obtain ⟨rest1, h1⟩ := hlog
      obtain ⟨_, rest2, h2⟩ := request_frame srv url options fuel (refreshTokenManually srv
        (adoptHeaderTokens (fetch srv w (requestCall w url options)).2 r)).2
      exact ⟨rest1 ++ rest2, by rw [h2, h1]; simp⟩

/-- After a 401, with a refresh token at hand, the second call is the refresh. -/
theorem request_second_call (srv : Server) (fuel : Nat) (w : World) (url : String)
    (options : Options) (r : Response) (htok : truthy w.accessToken = true)
    (hs : srv w.fetched (requestCall w url options) = .response r) (h401 : r.status = 401)
    (href : truthy (atStatusCheck srv w url options r).refreshToken = true) :
    ∃ rest, (request srv (fuel + 1) w url options).2.fetched =
      w.fetched ++ requestCall w url options ::
        refreshCall (atStatusCheck srv w url options r) :: rest := by
  unfold atStatusCheck at href ⊢
  have hfr := adoptHeaderTokens_frame (fetch srv w (requestCall w url options)).2 r
  have hlog : (refreshTokenManually srv
      (adoptHeaderTokens (fetch srv w (requestCall w url options)).2 r)).2.fetched
        = w.fetched ++ requestCall w url options ::
          [refreshCall (adoptHeaderTokens (fetch srv w (requestCall w url options)).2 r)] := by
    rw [refreshTokenManually_fetched_of_truthy srv _ href, hfr.2.1]
    simp [fetch]
  rcases request_round srv fuel w url options r htok hs with
    ⟨hne, _⟩ | ⟨_, _, heq⟩ | ⟨_, _, heq⟩
  · exact absurd h401 hne
  · rw [heq]
    exact ⟨[], hlog⟩
  · rw [heq]
    obtain ⟨_, rest2, h2⟩ := request_frame srv url options fuel (refreshTokenManually srv
      (adoptHeaderTokens (fetch srv w (requestCall w url options)).2 r)).2
    exact ⟨rest2, by rw [h2, hlog]; simp⟩

/-! ## C1 -/

/-- C1 (as stated, refuted): the manager holds the token `A1`, the caller passes
a plain object with its own `Authorization` property, and the one call made to
`fetch` carries the value of the caller, not `Bearer A1`. -/
theorem request_authorization_overridden :
    sampleWorld.accessToken = .str "A1" ∧
    ((request plainServer 1 sampleWorld "/auth/profile"
        { headers := some (.object [("Authorization", "Bearer stale")]) }).2.fetched.map
      (fun c => objGet c.headers "Authorization")) = [some "Bearer stale"] ∧
    ((request plainServer 1 sampleWorld "/auth/profile"
        { headers := some (.object [("Authorization", "Bearer stale")]) }).2.fetched.map
      (fun c => objGet c.headers "Authorization")) ≠ [some "Bearer A1"] := by
  decide

/-- C1 (as amended): while the access token is a non-empty string `T`, the
first call `request` hands to `fetch` goes to `baseURL + url`.  When
`options.headers` is a plain object, the `Authorization` property of the
headers handed over is the own `Authorization` property of that object if it
has one and `Bearer T` otherwise, and `Content-Type` likewise is the property
of the caller or else `application/json`.  When `options.headers` is absent or
is an instance of `Headers`, whatever that instance holds, the headers handed
over are `Bearer T` and `application/json`. -/
theorem request_authorization_header (srv : Server) (fuel : Nat) (w : World) (url : String)
    (options : Options) (T : String) (hT : w.accessToken = .str T) (hne : T ≠ "") :
    (∃ rest, (request srv (fuel + 1) w url options).2.fetched =
      w.fetched ++ requestCall w url options :: rest) ∧
    (requestCall w url options).url = w.baseURL ++ url ∧
    (∀ own, options.headers = some (.object own) →
      objGet (requestCall w url options).headers "Authorization" =
        some ((objGet own "Authorization").getD ("Bearer " ++ T)) ∧
      objGet (requestCall w url options).headers "Content-Type" =
        some ((objGet own "Content-Type").getD "application/json")) ∧
    ((options.headers = none ∨ ∃ entries, options.headers = some (.headers entries)) →
      objGet (requestCall w url options).headers "Authorization" = some ("Bearer " ++ T) ∧
      objGet (requestCall w url options).headers "Content-Type" = some "application/json") := by
  have htok : truthy w.accessToken = true := by
    rw [hT]
    simp [truthy, hne]
  have hstr : toStr w.accessToken = T := by rw [hT]; rfl
  refine ⟨request_first_call srv fuel w url options htok, rfl, ?_, ?_⟩
  · intro own hown
    have hh : (requestCall w url options).headers =
        [("Content-Type", "application/json"), ("Authorization", "Bearer " ++ T)] ++ own := by
      show requestHeaders w options = _
      unfold requestHeaders
      rw [hown, hstr]
      rfl
    rw [hh, objGet_append, objGet_append]
    constructor
    · cases h : objGet own "Authorization" with
      | some v => rfl
      | none =>
        simp only [Option.orElse, Option.getD]
        simp [objGet]
    · cases h : objGet own "Content-Type" with
      | some v => rfl
      | none =>
        simp only [Option.orElse, Option.getD]
        simp [objGet]
  · intro hnone
    have hh : (requestCall w url options).headers =
        [("Content-Type", "application/json"), ("Authorization", "Bearer " ++ T)] ++ [] := by
      show requestHeaders w options = _
      unfold requestHeaders
      rcases hnone with h | ⟨entries, h⟩ <;> (rw [h, hstr]; try rfl)
    rw [hh]
    constructor <;> simp [objGet]

/-- C1 (witness): without headers of the caller, and with an instance of
`Headers` that holds its own `Authorization` entry, the header is `Bearer A1`. -/
theorem request_authorization_header_witness :
    sampleWorld.accessToken = .str "A1" ∧
    objGet (requestCall sampleWorld "/auth/profile" {}).headers "Authorization" =
      some "Bearer A1" ∧
    objGet (requestCall sampleWorld "/auth/profile"
        { headers := some (.headers [("Authorization", "Bearer stale")]) }).headers
      "Authorization" = some "Bearer A1" :=
  ⟨by decide,
    ((request_authorization_header plainServer 0 sampleWorld "/auth/profile" {} "A1"
      (by decide) (by decide)).2.2.2 (Or.inl rfl)).1,
    ((request_authorization_header plainServer 0 sampleWorld "/auth/profile"
      { headers := some (.headers [("Authorization", "Bearer stale")]) } "A1"
      (by decide) (by decide)).2.2.2
        (Or.inr ⟨[("Authorization", "Bearer stale")], rfl⟩)).1⟩

/-! ## C2 -/

/-- C2: when the access token is `null`, `undefined` or the empty string,
`request` throws the error `No access token available` and the whole state is
what it was: no call has been made to `fetch`, the pair and the store are
unchanged. -/
theorem request_unauthenticated (srv : Server) (fuel : Nat) (w : World) (url : String)
    (options : Options)
    (h : w.accessToken = .null ∨ w.accessToken = .undefined ∨ w.accessToken = .str "") :
    request srv (fuel + 1) w url options = (.threw (.error "No access token available"), w) := by
  apply request_falsy_token
  rcases h with h | h | h <;> rw [h] <;> rfl

/-- C2 (witness): a manager built over an empty store. -/
theorem request_unauthenticated_witness :
    emptyWorld.accessToken = .null ∧
    request plainServer 1 emptyWorld "/auth/profile" {} =
      (.threw (.error "No access token available"), emptyWorld) ∧
    emptyWorld.fetched = [] :=
  ⟨by decide,
    request_unauthenticated plainServer 0 emptyWorld "/auth/profile" {} (Or.inl (by decide)),
    by decide⟩

/-! ## C3 -/

/-- C3 (as stated, refuted): the first response is a 401 and the refresh
succeeds, yet `request` calls `fetch` three times for the request (five times
in all) and returns the third response, because the second was a 401 too. -/
theorem request_retries_twice :
    expiringServer 4 sampleWorld.fetched (requestCall sampleWorld "/auth/profile" {}) =
      .response { status := 401 } ∧
    (refreshTokenManually (expiringServer 4)
      (atStatusCheck (expiringServer 4) sampleWorld "/auth/profile" {} { status := 401 })).1 =
      .returned true ∧
    (request (expiringServer 4) 3 sampleWorld "/auth/profile" {}).1 =
      .returned (some { status := 200 }) ∧
    ((request (expiringServer 4) 3 sampleWorld "/auth/profile" {}).2.fetched.map
      (fun c => c.url)) =
      ["/api/auth/profile", "/api/auth/refresh", "/api/auth/profile", "/api/auth/refresh",
        "/api/auth/profile"] := by
  decide

/-- C3 (as amended): when the first response is a 401, the refresh succeeds and
leaves an access token, and the second response has a status other than 401,
`request` makes exactly three calls to `fetch`: the original call, the refresh
and one retry; the retry has the url, method and body of the original with the
headers built from the new token, and its response is what `request` returns. -/
theorem request_retry_once (srv : Server) (fuel : Nat) (w w3 : World) (url : String)
    (options : Options) (r1 r2 : Response)
    (htok : truthy w.accessToken = true)
    (hs1 : srv w.fetched (requestCall w url options) = .response r1)
    (h401 : r1.status = 401)
    (href : refreshTokenManually srv (atStatusCheck srv w url options r1) = (.returned true, w3))
    (htok3 : truthy w3.accessToken = true)
    (hs2 : srv w3.fetched (requestCall w3 url options) = .response r2)
    (hne : r2.status ≠ 401) :
    (request srv (fuel + 2) w url options).1 = .returned (some r2) ∧
    (request srv (fuel + 2) w url options).2.fetched =
      w.fetched ++ [requestCall w url options, refreshCall (atStatusCheck srv w url options r1),
        requestCall w3 url options] ∧
    (requestCall w3 url options).url = (requestCall w url options).url ∧
    (requestCall w3 url options).method = options.method ∧
    (requestCall w3 url options).body = options.body ∧
    (requestCall w3 url options).headers = requestHeaders w3 options := by
  have hstep := request_refresh_ok srv (fuel + 1) w url options r1 w3 htok hs1 h401 href
  have h2 := request_other_status srv fuel w3 url options r2 htok3 hs2 hne
  have hfr := adoptHeaderTokens_frame (fetch srv w (requestCall w url options)).2 r1
  have hfr3 := adoptHeaderTokens_frame (fetch srv w3 (requestCall w3 url options)).2 r2
  have hret : (refreshTokenManually srv (atStatusCheck srv w url options r1)).1 = .returned true := by
    rw [href]
  obtain ⟨htr, _⟩ := refreshTokenManually_true srv _ hret
  have hlog := refreshTokenManually_fetched_of_truthy srv _ htr
  have hbase := (refreshTokenManually_frame srv (atStatusCheck srv w url options r1)).1
  rw [href] at hlog hbase
  simp only at hlog hbase
  rw [show fuel + 2 = (fuel + 1) + 1 from rfl, hstep, h2]
  refine ⟨rfl, ?_, ?_, rfl, rfl, rfl⟩
  · rw [hfr3.2.1]
    show w3.fetched ++ [requestCall w3 url options] = _
    rw [hlog]
    unfold atStatusCheck
    rw [hfr.2.1]
    simp [fetch]
  · show w3.baseURL ++ url = w.baseURL ++ url
    rw [hbase]
    unfold atStatusCheck
    rw [hfr.1]
    rfl

/-- C3 (witness): one 401, a refresh to `("A2", "R2")`, then a 200. -/
theorem request_retry_once_witness :
    (request (expiringServer 2) 2 sampleWorld "/auth/profile" {}).1 =
      .returned (some { status := 200 }) ∧
    ((request (expiringServer 2) 2 sampleWorld "/auth/profile" {}).2.fetched.map
      (fun c => c.url)) = ["/api/auth/profile", "/api/auth/refresh", "/api/auth/profile"] ∧
    ((request (expiringServer 2) 2 sampleWorld "/auth/profile" {}).2.fetched.map
      (fun c => objGet c.headers "Authorization")) =
      [some "Bearer A1", none, some "Bearer A2"] := by
  have h := request_retry_once (expiringServer 2) 0 sampleWorld
    (refreshTokenManually (expiringServer 2)
      (atStatusCheck (expiringServer 2) sampleWorld "/auth/profile" {} { status := 401 })).2
    "/auth/profile" {} { status := 401 } { status := 200 }
    (by decide) (by decide) (by decide) (by decide) (by decide) (by decide) (by decide)
  refine ⟨h.1, ?_, ?_⟩
  · rw [h.2.1]; decide
  · rw [h.2.1]; decide

/-! ## C4 -/

/-- C4: when the response to the call of `request` has status 401 and the
refresh fails, because no refresh token is present, because the refresh
endpoint answers with a status that is not ok, or because the refresh call is
rejected, `request` does not throw: it returns `undefined`, both tokens are
`null`, both keys are gone from the store, and `window.location.href` has been
set to `/login`. -/
theorem request_refresh_failure (srv : Server) (fuel : Nat) (w : World) (url : String)
    (options : Options) (r : Response)
    (htok : truthy w.accessToken = true)
    (hs : srv w.fetched (requestCall w url options) = .response r)
    (h401 : r.status = 401)
    (hfail : truthy (atStatusCheck srv w url options r).refreshToken = false ∨
      (∃ r2, srv (atStatusCheck srv w url options r).fetched
          (refreshCall (atStatusCheck srv w url options r)) = .response r2 ∧ r2.ok = false) ∨
      (∃ e, srv (atStatusCheck srv w url options r).fetched
          (refreshCall (atStatusCheck srv w url options r)) = .failure e)) :
    (request srv (fuel + 1) w url options).1 = .returned none ∧
    (request srv (fuel + 1) w url options).2.accessToken = .null ∧
    (request srv (fuel + 1) w url options).2.refreshToken = .null ∧
    getItem (request srv (fuel + 1) w url options).2.localStorage "access_token" = none ∧
    getItem (request srv (fuel + 1) w url options).2.localStorage "refresh_token" = none ∧
    (request srv (fuel + 1) w url options).2.location = some "/login" := by
  have hfalse : (refreshTokenManually srv (atStatusCheck srv w url options r)).1
      = .returned false := by
    rcases hfail with h | ⟨r2, h, hok⟩ | ⟨e, h⟩
    · rw [refreshTokenManually_no_token srv _ h]
    · exact (refreshTokenManually_not_ok srv _ r2 h hok).1
    · exact (refreshTokenManually_failure srv _ e h).1
  rw [request_refresh_failed srv fuel w url options r htok hs h401 hfalse]
  exact ⟨rfl, rfl, rfl, clearTokens_store_access _, clearTokens_store_refresh _, rfl⟩

/-- C4 (witness): the refresh endpoint answers 403. -/
theorem request_refresh_failure_witness :
    (request rejectingServer 1 sampleWorld "/auth/profile" {}).1 = .returned none ∧
    (request rejectingServer 1 sampleWorld "/auth/profile" {}).2.accessToken = .null ∧
    (request rejectingServer 1 sampleWorld "/auth/profile" {}).2.refreshToken = .null ∧
    getItem (request rejectingServer 1 sampleWorld "/auth/profile" {}).2.localStorage
      "access_token" = none ∧
    getItem (request rejectingServer 1 sampleWorld "/auth/profile" {}).2.localStorage
      "refresh_token" = none ∧
    (request rejectingServer 1 sampleWorld "/auth/profile" {}).2.location = some "/login" :=
  request_refresh_failure rejectingServer 0 sampleWorld "/auth/profile" {} { status := 401 }
    (by decide) (by decide) (by decide)
    (Or.inr (Or.inl ⟨{ status := 403 }, by decide, by decide⟩))

/-! ## C5 -/

/-- C5: when the response carries `X-Token-Refreshed: true` with non-empty
`X-New-Access-Token` `A` and `X-New-Refresh-Token` `R`, the pair `(A, R)` is
adopted through `setTokens` before the status is examined, whatever the status:
on a status other than 401, 200 among them, `request` returns that response
and the manager and the store hold `(A, R)`; on a 401 the refresh that follows
already sends `R`. -/
theorem request_adopts_header_tokens (srv : Server) (fuel : Nat) (w : World) (url : String)
    (options : Options) (r : Response) (A R : String)
    (htok : truthy w.accessToken = true)
    (hs : srv w.fetched (requestCall w url options) = .response r)
    (hflag : r.xTokenRefreshed = some "true")
    (hA : r.xNewAccessToken = some A) (hR : r.xNewRefreshToken = some R)
    (hAne : A ≠ "") (hRne : R ≠ "") :
    atStatusCheck srv w url options r =
      setTokens (fetch srv w (requestCall w url options)).2 (.str A) (.str R) ∧
    (r.status ≠ 401 →
      (request srv (fuel + 1) w url options).1 = .returned (some r) ∧
      (request srv (fuel + 1) w url options).2.accessToken = .str A ∧
      (request srv (fuel + 1) w url options).2.refreshToken = .str R ∧
      storeHolds (request srv (fuel + 1) w url options).2 "access_token" (.str A) ∧
      storeHolds (request srv (fuel + 1) w url options).2 "refresh_token" (.str R)) ∧
    (r.status = 401 →
      ∃ rest, (request srv (fuel + 1) w url options).2.fetched =
        w.fetched ++ requestCall w url options ::
          { url := w.baseURL ++ "/auth/refresh"
            method := some "POST"
            headers := [("Content-Type", "application/json")]
            body := some (.json (.obj (.cons "refresh_token" (.str R) .nil))) } :: rest) := by
  have hadopt : atStatusCheck srv w url options r =
      setTokens (fetch srv w (requestCall w url options)).2 (.str A) (.str R) :=
    adoptHeaderTokens_adopts _ r A R hflag hA hR hAne hRne
  refine ⟨hadopt, ?_, ?_⟩
  · intro hne
    rw [request_other_status srv fuel w url options r htok hs hne]
    show _ ∧ (atStatusCheck srv w url options r).accessToken = _ ∧
      (atStatusCheck srv w url options r).refreshToken = _ ∧
      storeHolds (atStatusCheck srv w url options r) _ _ ∧
      storeHolds (atStatusCheck srv w url options r) _ _
    rw [hadopt]
    refine ⟨rfl, rfl, rfl, ?_, ?_⟩
    · unfold storeHolds; rw [setTokens_store_access]; rfl
    · unfold storeHolds; rw [setTokens_store_refresh]; rfl
  · intro h401
    have href : truthy (atStatusCheck srv w url options r).refreshToken = true := by
      rw [hadopt]
      show truthy (JsVal.str R) = true
      simp [truthy, hRne]
    obtain ⟨rest, hrest⟩ := request_second_call srv fuel w url options r htok hs h401 href
    refine ⟨rest, ?_⟩
    rw [hrest, hadopt]
    rfl

/-- C5 (witness): a 200 that carries the rotation headers `("A3", "R3")`. -/
theorem request_adopts_header_tokens_witness :
    (request rotatingServer 1 sampleWorld "/auth/profile" {}).1 =
      .returned (some
        { status := 200
          xNewAccessToken := some "A3"
          xNewRefreshToken := some "R3"
          xTokenRefreshed := some "true" }) ∧
    (request rotatingServer 1 sampleWorld "/auth/profile" {}).2.accessToken = .str "A3" ∧
    (request rotatingServer 1 sampleWorld "/auth/profile" {}).2.refreshToken = .str "R3" ∧
    storeHolds (request rotatingServer 1 sampleWorld "/auth/profile" {}).2
      "access_token" (.str "A3") ∧
    storeHolds (request rotatingServer 1 sampleWorld "/auth/profile" {}).2
      "refresh_token" (.str "R3") :=
  (request_adopts_header_tokens rotatingServer 0 sampleWorld "/auth/profile" {}
    { status := 200
      xNewAccessToken := some "A3"
      xNewRefreshToken := some "R3"
      xTokenRefreshed := some "true" } "A3" "R3"
    (by decide) (by decide) rfl rfl rfl (by decide) (by decide)).2.1 (by decide)

/-! ## C6 -/

/-- C6 (as stated, refuted): after `setTokens(null, null)` the field is `null`
but the store holds the string `"null"` under `access_token`, so reading the
key back does not give the value that was set. -/
theorem setTokens_null_not_held :
    (setTokens emptyWorld .null .null).accessToken = .null ∧
    ¬ storeHolds (setTokens emptyWorld .null .null) "access_token" .null ∧
    getItem (setTokens emptyWorld .null .null).localStorage "access_token" = some "null" := by
  unfold storeHolds
  decide

/-- C6 (as amended): after `setTokens(a, r)` the two fields are `a` and `r`;
when `a` and `r` are strings the store holds `a` under `access_token` and `r`
under `refresh_token`; the store holds strings only, and a `null` or
`undefined` pair is kept there as the strings `"null"` or `"undefined"`; after
`clearTokens()` both fields are `null` and both keys are absent, and clearing
twice gives the same state as clearing once. -/
theorem setTokens_clearTokens_state (w : World) :
    (∀ a r : JsVal, (setTokens w a r).accessToken = a ∧ (setTokens w a r).refreshToken = r) ∧
    (∀ a r : String,
      storeHolds (setTokens w (.str a) (.str r)) "access_token" (.str a) ∧
      storeHolds (setTokens w (.str a) (.str r)) "refresh_token" (.str r)) ∧
    (storeHolds (setTokens w .null .null) "access_token" (.str "null") ∧
      storeHolds (setTokens w .null .null) "refresh_token" (.str "null")) ∧
    (storeHolds (setTokens w .undefined .undefined) "access_token" (.str "undefined") ∧
      storeHolds (setTokens w .undefined .undefined) "refresh_token" (.str "undefined")) ∧
    (clearTokens w).accessToken = .null ∧ (clearTokens w).refreshToken = .null ∧
    getItem (clearTokens w).localStorage "access_token" = none ∧
    getItem (clearTokens w).localStorage "refresh_token" = none ∧
    clearTokens (clearTokens w) = clearTokens w := by
  have hheld : ∀ a r : JsVal,
      storeHolds (setTokens w a r) "access_token" (.str (toStr a)) ∧
      storeHolds (setTokens w a r) "refresh_token" (.str (toStr r)) := by
    intro a r
    unfold storeHolds
    rw [setTokens_store_access, setTokens_store_refresh]
    exact ⟨rfl, rfl⟩
  exact ⟨fun a r => ⟨rfl, rfl⟩, fun a r => hheld (.str a) (.str r), hheld .null .null,
    hheld .undefined .undefined, rfl, rfl, clearTokens_store_access w,
    clearTokens_store_refresh w, clearTokens_idem w⟩

/-! ## C8 -/

/-- C8: `refreshTokenManually` always returns a boolean and never throws;
without a refresh token it returns `false` and the state, the record of calls
included, is untouched; on an answer that is not ok, and on a rejected call, it
returns `false` and leaves the pair and the store as they were; when it returns
`true` the endpoint answered ok and the pair is the `access_token` and
`refresh_token` of `data.tokens` in the body of the answer. -/
theorem refreshTokenManually_contract (srv : Server) (w : World) :
    (∃ b, (refreshTokenManually srv w).1 = .returned b) ∧
    (truthy w.refreshToken = false → refreshTokenManually srv w = (.returned false, w)) ∧
    (∀ r, srv w.fetched (refreshCall w) = .response r → r.ok = false →
      (refreshTokenManually srv w).1 = .returned false ∧
      (refreshTokenManually srv w).2.accessToken = w.accessToken ∧
      (refreshTokenManually srv w).2.refreshToken = w.refreshToken ∧
      (refreshTokenManually srv w).2.localStorage = w.localStorage) ∧
    (∀ e, srv w.fetched (refreshCall w) = .failure e →
      (refreshTokenManually srv w).1 = .returned false ∧
      (refreshTokenManually srv w).2.accessToken = w.accessToken ∧
      (refreshTokenManually srv w).2.refreshToken = w.refreshToken ∧
      (refreshTokenManually srv w).2.localStorage = w.localStorage) ∧
    ((refreshTokenManually srv w).1 = .returned true →
      ∃ r data a b, srv w.fetched (refreshCall w) = .response r ∧ r.ok = true ∧
        r.json = some data ∧ envelopeTokens data "tokens" = .ok (a, b) ∧
        (refreshTokenManually srv w).2.accessToken = a ∧
        (refreshTokenManually srv w).2.refreshToken = b) := by
  refine ⟨refreshTokenManually_returns srv w, refreshTokenManually_no_token srv w,
    fun r hs hok => refreshTokenManually_not_ok srv w r hs hok,
    fun e hs => refreshTokenManually_failure srv w e hs, ?_⟩
  intro h
  obtain ⟨_, r, data, a, b, hs, hok, hj, he, heq⟩ := refreshTokenManually_true srv w h
  exact ⟨r, data, a, b, hs, hok, hj, he, by rw [heq]; rfl, by rw [heq]; rfl⟩

/-- C8 (witness): a successful refresh installs `("A2", "R2")`; a refresh that
is answered 403 returns `false` and keeps `("A1", "R1")`. -/
theorem refreshTokenManually_contract_witness :
    (refreshTokenManually stubbornServer sampleWorld).1 = .returned true ∧
    (refreshTokenManually stubbornServer sampleWorld).2.accessToken = .str "A2" ∧
    (refreshTokenManually stubbornServer sampleWorld).2.refreshToken = .str "R2" ∧
    (refreshTokenManually rejectingServer sampleWorld).1 = .returned false ∧
    (refreshTokenManually rejectingServer sampleWorld).2.accessToken = .str "A1" ∧
    (refreshTokenManually rejectingServer sampleWorld).2.refreshToken = .str "R1" :=
  have h := (refreshTokenManually_contract rejectingServer sampleWorld).2.2.1
    { status := 403 } (by decide) (by decide)
  ⟨by decide, by decide, by decide, h.1, h.2.1, h.2.2.1⟩

/-! ## logout -/

theorem logout_of_request (srv : Server) (fuel : Nat) (w : World) :
    ((request srv fuel w "/auth/logout" { method := some "POST" }).1 = .outOfFuel →
      (logout srv fuel w).1 = .outOfFuel) ∧
    ((request srv fuel w "/auth/logout" { method := some "POST" }).1 ≠ .outOfFuel →
      logout srv fuel w =
        (.returned (), clearTokens (request srv fuel w "/auth/logout"
          { method := some "POST" }).2)) := by
  unfold logout
  generalize request srv fuel w "/auth/logout" { method := some "POST" } = res
  obtain ⟨o, w1⟩ := res
  cases o with
  | returned v => exact ⟨fun h => by simp at h, fun _ => rfl⟩
  | threw e => exact ⟨fun h => by simp at h, fun _ => rfl⟩
  | outOfFuel => exact ⟨fun _ => rfl, fun h => absurd rfl h⟩

/-- One round is enough for `request` to end when it has no token, when the
call is rejected, when the status is not 401 or when the refresh fails. -/
theorem request_ends (srv : Server) (fuel : Nat) (w : World) (url : String) (options : Options)
    (h : truthy w.accessToken = false ∨
      (∃ e, srv w.fetched (requestCall w url options) = .failure e) ∨
      (∃ r, srv w.fetched (requestCall w url options) = .response r ∧
        (r.status ≠ 401 ∨
          (refreshTokenManually srv (atStatusCheck srv w url options r)).1 = .returned false))) :
    (request srv (fuel + 1) w url options).1 ≠ .outOfFuel := by
  by_cases htok : truthy w.accessToken = false
  · rw [request_falsy_token srv fuel w url options htok]; simp
  · have htok1 : truthy w.accessToken = true := by simpa using htok
    rcases h with h | ⟨e, h⟩ | ⟨r, h, hr⟩
    · exact absurd h htok
    · rw [request_failure srv fuel w url options e htok1 h]; simp
    · rcases request_round srv fuel w url options r htok1 h with
        ⟨_, heq⟩ | ⟨_, _, heq⟩ | ⟨h401, htrue, _⟩
      · rw [heq]; simp
      · rw [heq]; simp
      · rcases hr with hne | hfalse
        · exact absurd h401 hne
        · unfold atStatusCheck at hfalse
          rw [hfalse] at htrue
          simp at htrue

/-- On a stubborn server each round of `request` adds one call for the request
itself to the record. -/
theorem request_stubborn_count (srv : Server) (url : String) (options : Options) (base : String)
    (hsrv : Stubborn srv (base ++ "/auth/refresh"))
    (hurl : base ++ url ≠ base ++ "/auth/refresh") :
    ∀ (fuel : Nat) (w : World), w.baseURL = base → truthy w.accessToken = true →
      truthy w.refreshToken = true →
      ((request srv fuel w url options).2.fetched.filter
          (fun c => decide (c.url = base ++ url))).length =
        (w.fetched.filter (fun c => decide (c.url = base ++ url))).length + fuel := by
  intro fuel
  induction fuel with
  | zero => intro w _ _ _; rfl
  | succ n ih =>
    intro w hbase htok href
    have hcurl : (requestCall w url options).url = base ++ url := by
      show w.baseURL ++ url = base ++ url
      rw [hbase]
    have hcne : (requestCall w url options).url ≠ base ++ "/auth/refresh" := by
      rw [hcurl]; exact hurl
    obtain ⟨r, hs, h401⟩ := (hsrv w.fetched (requestCall w url options)).2 hcne
    have hfr := adoptHeaderTokens_frame (fetch srv w (requestCall w url options)).2 r
    have htr := adoptHeaderTokens_truthy (fetch srv w (requestCall w url options)).2 r htok href
    generalize hw2 : adoptHeaderTokens (fetch srv w (requestCall w url options)).2 r = w2
      at hfr htr
    have hrurl : (refreshCall w2).url = base ++ "/auth/refresh" := by
      show w2.baseURL ++ "/auth/refresh" = base ++ "/auth/refresh"
      rw [hfr.1]; show w.baseURL ++ _ = _; rw [hbase]
    obtain ⟨r2, data, a, b, hs2, hok, hj, he, ha, hb⟩ := (hsrv w2.fetched (refreshCall w2)).1 hrurl
    have hrefresh : refreshTokenManually srv w2 =
        (.returned true, setTokens (fetch srv w2 (refreshCall w2)).2 a b) := by
      rw [refreshTokenManually_eq]
      have hf : ¬ truthy w2.refreshToken = false := by rw [htr.2]; decide
      simp [hf, hs2, hok, hj, he]
    have hstep := request_refresh_ok srv n w url options r _ htok hs h401
      (by rw [hw2]; exact hrefresh)
    rw [hstep]
    rw [ih (setTokens (fetch srv w2 (refreshCall w2)).2 a b)
      (by show w2.baseURL = base; rw [hfr.1]; exact hbase) ha hb]
    show ((w2.fetched ++ [refreshCall w2]).filter _).length + n = _
    rw [hfr.2.1]
    show (((w.fetched ++ [requestCall w url options]) ++ [refreshCall w2]).filter _).length + n = _
    have hrne : ¬ (refreshCall w2).url = base ++ url := by
      rw [hrurl]; exact fun e => hurl e.symm
    simp only [List.filter_append, List.length_append, List.filter_cons, List.filter_nil,
      hcurl, hrne, decide_True, decide_False, if_true, List.length_cons, List.length_nil]
    simp
    omega

/-! ## C7 -/

/-- C7 (as stated, refuted): against a server that answers 401 to the logout
call and reports every refresh as successful, no recursion budget lets
`logout` complete. -/
theorem logout_never_completes :
    ¬ ∃ fuel : Nat, (logout stubbornServer fuel sampleWorld).1 ≠ .outOfFuel := by
  rintro ⟨fuel, h⟩
  apply h
  apply (logout_of_request stubbornServer fuel sampleWorld).1
  exact (request_stubborn stubbornServer "/auth/logout" { method := some "POST" } "/api"
    stubbornServer_stubborn (by decide) fuel sampleWorld rfl (by decide) (by decide)).1

/-- C7 (as amended): whenever the request that `logout` makes comes to an end,
`logout` returns without throwing and leaves both tokens `null` and both keys
out of the store; the request comes to an end within one round when no access
token is present, when the call is rejected, when the status is not 401 and
when the refresh after a 401 fails; while the request has not come to an end,
`logout` has not completed either. -/
theorem logout_clears (srv : Server) (fuel : Nat) (w : World) :
    ((request srv fuel w "/auth/logout" { method := some "POST" }).1 ≠ .outOfFuel →
      (logout srv fuel w).1 = .returned () ∧
      (logout srv fuel w).2.accessToken = .null ∧
      (logout srv fuel w).2.refreshToken = .null ∧
      getItem (logout srv fuel w).2.localStorage "access_token" = none ∧
      getItem (logout srv fuel w).2.localStorage "refresh_token" = none) ∧
    ((truthy w.accessToken = false ∨
      (∃ e, srv w.fetched (requestCall w "/auth/logout" { method := some "POST" }) =
        .failure e) ∨
      (∃ r, srv w.fetched (requestCall w "/auth/logout" { method := some "POST" }) =
          .response r ∧
        (r.status ≠ 401 ∨
          (refreshTokenManually srv
            (atStatusCheck srv w "/auth/logout" { method := some "POST" } r)).1 =
            .returned false))) →
      (request srv (fuel + 1) w "/auth/logout" { method := some "POST" }).1 ≠ .outOfFuel) ∧
    ((request srv fuel w "/auth/logout" { method := some "POST" }).1 = .outOfFuel →
      (logout srv fuel w).1 = .outOfFuel) := by
  refine ⟨?_, request_ends srv fuel w "/auth/logout" { method := some "POST" },
    (logout_of_request srv fuel w).1⟩
  intro h
  rw [(logout_of_request srv fuel w).2 h]
  exact ⟨rfl, rfl, rfl, clearTokens_store_access _, clearTokens_store_refresh _⟩

/-- C7 (witness): a logout call that is rejected by the network. -/
theorem logout_clears_witness :
    (logout (fun _ _ => .failure (.network "offline")) 1 sampleWorld).1 = .returned () ∧
    (logout (fun _ _ => .failure (.network "offline")) 1 sampleWorld).2.accessToken = .null ∧
    (logout (fun _ _ => .failure (.network "offline")) 1 sampleWorld).2.refreshToken = .null ∧
    getItem (logout (fun _ _ => .failure (.network "offline")) 1 sampleWorld).2.localStorage
      "access_token" = none ∧
    getItem (logout (fun _ _ => .failure (.network "offline")) 1 sampleWorld).2.localStorage
      "refresh_token" = none :=
  (logout_clears (fun _ _ => .failure (.network "offline")) 1 sampleWorld).1 (by decide)

/-! ## C9 -/

/-- C9 (as stated, refuted): the server answers 401 three times in a row, each
refresh succeeds, and the one call to `request` sends the request four times
before it returns the 200. -/
theorem request_reissues_three_times :
    (request (expiringServer 6) 4 sampleWorld "/auth/profile" {}).1 =
      .returned (some { status := 200 }) ∧
    ((request (expiringServer 6) 4 sampleWorld "/auth/profile" {}).2.fetched.map
      (fun c => c.url)) =
      ["/api/auth/profile", "/api/auth/refresh", "/api/auth/profile", "/api/auth/refresh",
        "/api/auth/profile", "/api/auth/refresh", "/api/auth/profile"] := by
  decide

/-- C9 (as amended): a 401 on a retried request is handled like the first one,
so the number of retries has no bound: against a server that answers 401 to
the request and reports every refresh as successful, `request` has not
returned after any number `fuel` of rounds, and by then it has sent the request
`fuel` times and has called `fetch` `2 * fuel` times in all. -/
theorem request_unbounded_retry (srv : Server) (w : World) (url : String) (options : Options)
    (fuel : Nat)
    (hsrv : Stubborn srv (w.baseURL ++ "/auth/refresh"))
    (hurl : w.baseURL ++ url ≠ w.baseURL ++ "/auth/refresh")
    (htok : truthy w.accessToken = true) (href : truthy w.refreshToken = true) :
    (request srv fuel w url options).1 = .outOfFuel ∧
    (request srv fuel w url options).2.fetched.length = w.fetched.length + 2 * fuel ∧
    ((request srv fuel w url options).2.fetched.filter
        (fun c => decide (c.url = w.baseURL ++ url))).length =
      (w.fetched.filter (fun c => decide (c.url = w.baseURL ++ url))).length + fuel := by
  obtain ⟨h1, h2⟩ := request_stubborn srv url options w.baseURL hsrv hurl fuel w rfl htok href
  exact ⟨h1, h2, request_stubborn_count srv url options w.baseURL hsrv hurl fuel w rfl htok href⟩

/-- C9 (witness): after five rounds, five requests and five refreshes. -/
theorem request_unbounded_retry_witness :
    (request stubbornServer 5 sampleWorld "/auth/profile" {}).1 = .outOfFuel ∧
    (request stubbornServer 5 sampleWorld "/auth/profile" {}).2.fetched.length = 10 ∧
    ((request stubbornServer 5 sampleWorld "/auth/profile" {}).2.fetched.filter
        (fun c => decide (c.url = "/api/auth/profile"))).length = 5 :=
  request_unbounded_retry stubbornServer sampleWorld "/auth/profile" {} 5
    stubbornServer_stubborn (by decide) (by decide) (by decide)

/-! ## C10 -/

theorem expiringServer_matched (n : Nat) : ServerPairsMatched (expiringServer n) := by
  intro hist c r data a b hs hj he
  unfold expiringServer at hs
  split at hs
  · simp only [FetchResult.response.injEq] at hs
    subst hs
    simp only [Option.some.injEq] at hj
    subst hj
    rcases he with he | he
    · have h : envelopeTokens (tokensEnvelope (.str "A2") (.str "R2")) "tokens"
          = .ok (.str "A2", .str "R2") := rfl
      rw [h] at he
      simp only [Except.ok.injEq, Prod.mk.injEq] at he
      rw [← he.1, ← he.2]
      rfl
    · have h : envelopeTokens (tokensEnvelope (.str "A2") (.str "R2")) "new_tokens"
          = .error .typeError := rfl
      rw [h] at he
      simp at he
  · split at hs
    · simp only [FetchResult.response.injEq] at hs
      subst hs
      simp at hj
    · simp only [FetchResult.response.injEq] at hs
      subst hs
      simp at hj

/-- C10 (as stated, refuted): a store that holds only `access_token` gives a
manager with an access token and no refresh token, before any operation. -/
theorem new_mismatched_pair :
    ¬ paired (runAll plainServer (new [("access_token", "A1")]) []) ∧
    (new [("access_token", "A1")]).accessToken = .str "A1" ∧
    (new [("access_token", "A1")]).refreshToken = .null := by
  unfold paired
  decide

/-- C10 (as amended): when the store the manager is built over holds both keys
with non-empty values or neither, when `setTokens` is only called from outside
with two present or two absent values, and when every pair of tokens in the
bodies the server sends is of that kind too, then after any sequence of
operations the access token and the refresh token are both present or both
absent. -/
theorem paired_invariant (srv : Server) (storage : Storage) (ops : List Op)
    (hstore : truthy (ofNullable (getItem storage "access_token")) =
      truthy (ofNullable (getItem storage "refresh_token")))
    (hsrv : ServerPairsMatched srv)
    (hops : ∀ a r, Op.setTokens a r ∈ ops → truthy a = truthy r) :
    paired (runAll srv (new storage) ops) :=
  runAll_paired srv hsrv ops (new storage) hstore hops

/-- C10 (witness): a profile read with one refresh, a call of `setTokens` and a
logout, over a store that holds a full pair. -/
theorem paired_invariant_witness :
    paired (runAll (expiringServer 2) (new [("access_token", "A1"), ("refresh_token", "R1")])
      [.getProfile 3, .setTokens (.str "x") (.str "y"), .logout 2]) :=
  paired_invariant (expiringServer 2) [("access_token", "A1"), ("refresh_token", "R1")]
    [.getProfile 3, .setTokens (.str "x") (.str "y"), .logout 2] (by decide)
    (expiringServer_matched 2)
    (by
      intro a r h
      simp only [List.mem_cons, List.mem_singleton, Op.setTokens.injEq, List.mem_nil_iff,
        or_false, false_or, reduceCtorEq] at h
      obtain ⟨ha, hr⟩ := h
      rw [ha, hr]
      rfl)

end AuthManager
